import Mathlib

/-!
Verification of the bcache-tools-easystack superblock tool.

This file shallowly embeds the core of the repository:
`make-bcache`'s superblock writer (`write_sb`), the identity-reset path
(`reset_backing_sb`), the size validation helpers (`hatoi`,
`hatoi_validate`), the option-processing and device loops of `main`, and
the partition-topology resolver (`get_parent_device` of bcache-check.c).

Modelling conventions:
  * A device is modelled at superblock-record granularity: `Disk` maps a
    copy index `i` (the argument of the on-disk offset macro for copy `i`,
    index 0 being the primary record) to the record stored there.  The
    fixed per-copy offsets do not overlap, so a `pwrite` of one record is
    exactly an update at one index, and "byte-identical" for a copy means
    equality of the records.  The reserved header region below the first
    record (the zeroed start of disk and the optional 10-byte identity
    marker) lies below every record offset and is not part of the map.
  * The external checksum function (`csum_set`) and the external UUID
    source (`uuid_generate`) are collaborators; the operations take them
    as parameters (`csum : CacheSb → Nat`, applied to the record with its
    checksum field cleared, and `gen : Nat → Nat`, the stream of generated
    UUIDs consumed left to right).
  * Machine integers are `Nat`/`Int`; the C narrowing conversions are
    written out (`% 65536` for the `u16` superblock geometry fields,
    `emod (2 ^ 64)` where an `int`/`long long` is converted to `u64`).
  * Fallible paths return `Except`: `.error` carries the data unchanged
    at the point of failure (the C code `exit`s before its first write in
    every in-model failure path).
  * I/O faults (short reads, failed writes, open failures) and the
    external libblkid probe outcome are environment behaviour; the probe
    result is a boolean parameter, I/O is assumed to succeed.
-/

/-- Modelled from the spec: the repository's `bcache.h` is not among the
sources.  Sector offset of the primary superblock record (the fixed
primary sector offset of §6 of the spec); the standard bcache value. -/
def SB_SECTOR : Nat := 8

/-- Modelled from the spec: default first data sector of a backing device
(`data_offset` default), from the missing `bcache.h`. -/
def BDEV_DATA_START_DEFAULT : Nat := 16

/-- Modelled from the spec: upper bound accepted for the secondary-copy
count option, from the missing `bcache.h`.  The claims do not depend on
its exact value. -/
def BDEV_SB_NUM_MAX : Int := 8

/-- Modelled from the spec: minimum data offset leaving room for `n`
superblock copies at their fixed spacing, from the missing `bcache.h`;
it matches the bound `write_sb` re-checks against the stored offset. -/
def BDEV_DATA_OFFSET (n : Int) : Int :=
  (BDEV_DATA_START_DEFAULT : Int) + n * (SB_SECTOR : Int)

/-- Modelled from the spec: version tag of a cache-device superblock. -/
def BCACHE_SB_VERSION_CDEV : Nat := 0

/-- Modelled from the spec: version tag of a plain backing-device
superblock. -/
def BCACHE_SB_VERSION_BDEV : Nat := 1

/-- Modelled from the spec: version tag of the offset-carrying
backing-device variant. -/
def BCACHE_SB_VERSION_BDEV_WITH_OFFSET : Nat := 4

/-- Modelled from the spec: the `dirty` backing-device state value. -/
def BDEV_STATE_DIRTY : Nat := 2

/-- Modelled from the spec: writethrough cache mode value. -/
def CACHE_MODE_WRITETHROUGH : Nat := 0

/-- Modelled from the spec: writeback cache mode value. -/
def CACHE_MODE_WRITEBACK : Nat := 1

/-- Modelled from the spec: the 16-byte bcache magic constant from the
missing `bcache.h` (the standard on-disk bcache magic). -/
def bcache_magic : List Nat :=
  [0xc6, 0x85, 0x73, 0xf6, 0x4e, 0x1a, 0x45, 0xca,
   0x82, 0x65, 0xf5, 0x7f, 0x48, 0xba, 0x6d, 0x81]

/-- The in-memory/on-disk superblock record `struct cache_sb`, with the
flag bitfields of the missing header modelled as separate fields
(`bdev_state`, `cache_mode`, `cache_discard`, `cache_replacement`).
UUIDs are 128-bit values modelled as `Nat`. -/
structure CacheSb where
  csum : Nat
  offset : Nat
  version : Nat
  magic : List Nat
  uuid : Nat
  set_uuid : Nat
  bucket_size : Nat
  block_size : Nat
  data_offset : Nat
  nbuckets : Nat
  nr_in_set : Nat
  nr_this_dev : Nat
  first_bucket : Nat
  bdev_state : Nat
  cache_mode : Nat
  cache_discard : Bool
  cache_replacement : Nat
deriving Repr, DecidableEq

/-- The all-zero record, as produced by `memset(&sb, 0, sizeof sb)`. -/
def CacheSb.zero : CacheSb where
  csum := 0
  offset := 0
  version := 0
  magic := List.replicate 16 0
  uuid := 0
  set_uuid := 0
  bucket_size := 0
  block_size := 0
  data_offset := 0
  nbuckets := 0
  nr_in_set := 0
  nr_this_dev := 0
  first_bucket := 0
  bdev_state := 0
  cache_mode := 0
  cache_discard := false
  cache_replacement := 0

/-- `SB_IS_BDEV` of the missing header: the version is one of the two
backing-device variants. -/
def SB_IS_BDEV (sb : CacheSb) : Bool :=
  sb.version == BCACHE_SB_VERSION_BDEV ||
  sb.version == BCACHE_SB_VERSION_BDEV_WITH_OFFSET

/-- `sb.csum = csum_set(&sb)`: store the external checksum of the record
(computed with the checksum field itself excluded, i.e. cleared). -/
def setCsum (csum : CacheSb → Nat) (sb : CacheSb) : CacheSb :=
  { sb with csum := csum { sb with csum := 0 } }

/-- A device, at superblock-record granularity: the record stored at the
fixed offset of each copy index. -/
def Disk : Type := Nat → CacheSb

/-- `pwrite` of one full record at the fixed offset of copy `i`. -/
def Disk.write (d : Disk) (i : Nat) (sb : CacheSb) : Disk :=
  fun j => if j = i then sb else d j

/-- `reset_backing_sb`: re-identify one existing backing superblock copy.
Reads the record at copy `sb_idx`, validates magic / wipe flag / variant
and that the supplied UUIDs differ from the stored ones, then rebuilds
the record from zero keeping only the saved geometry, and writes it back
at the same index.  `.error` carries the unchanged disk (the C code
`exit`s before its single `pwrite` on every failure path). -/
def reset_backing_sb (csum : CacheSb → Nat) (wipe_bcache : Bool)
    (sb_idx : Nat) (set_uuid bdev_uuid : Nat) (disk : Disk) :
    Except Disk Disk :=
  let sb := disk sb_idx
  if sb.magic = bcache_magic then
    if ¬ wipe_bcache then .error disk
    else if ¬ SB_IS_BDEV sb then .error disk
    else
      -- save some old parameter
      let block_size := sb.block_size
      let bucket_size := sb.bucket_size
      let data_offset := sb.data_offset
      if sb.uuid = bdev_uuid then .error disk
      else if sb.set_uuid = set_uuid then .error disk
      else
        let nsb : CacheSb := { CacheSb.zero with
          offset := SB_SECTOR
          version := BCACHE_SB_VERSION_BDEV
          magic := bcache_magic
          uuid := bdev_uuid
          set_uuid := set_uuid
          bucket_size := bucket_size
          block_size := block_size }
        let nsb := if data_offset ≠ BDEV_DATA_START_DEFAULT then
            { nsb with
              version := BCACHE_SB_VERSION_BDEV_WITH_OFFSET
              data_offset := data_offset }
          else nsb
        if nsb.data_offset ≠ data_offset then .error disk
        else .ok (disk.write sb_idx (setCsum csum nsb))
  else .error disk

/-- The record `write_sb` builds before the per-kind branch: zeroed, then
stamped with offset, version (from the cache/backing flag), magic,
identifiers, and the geometry narrowed to the `u16` fields. -/
def sb_base (block_size bucket_size su bu : Nat) (bdev : Bool) : CacheSb :=
  { CacheSb.zero with
    offset := SB_SECTOR
    version := if bdev then BCACHE_SB_VERSION_BDEV
               else BCACHE_SB_VERSION_CDEV
    magic := bcache_magic
    uuid := bu
    set_uuid := su
    bucket_size := bucket_size % 65536
    block_size := block_size % 65536 }

/-- The backing-device half of `write_sb`'s branch on `SB_IS_BDEV`:
optionally set the dirty state, set the cache mode, and switch to the
offset-carrying variant when a non-default data offset was requested. -/
def bdev_finish (sb : CacheSb) (writeback dirty : Bool)
    (data_offset : Nat) : CacheSb :=
  let sb := if dirty then { sb with bdev_state := BDEV_STATE_DIRTY } else sb
  let sb := { sb with
    cache_mode := if writeback then CACHE_MODE_WRITEBACK
                  else CACHE_MODE_WRITETHROUGH }
  if data_offset ≠ BDEV_DATA_START_DEFAULT then
    { sb with
      version := BCACHE_SB_VERSION_BDEV_WITH_OFFSET
      data_offset := data_offset }
  else sb

/-- The derived cache-device fields of `write_sb`'s cache branch: bucket
count from the capacity, singleton set, first usable bucket past the
reserved header sectors. -/
def cdev_derive (sb : CacheSb) (capacity : Nat) : CacheSb :=
  { sb with
    nbuckets := capacity / sb.bucket_size
    nr_in_set := 1
    first_bucket := 23 / sb.bucket_size + 1 }

/-- One secondary-copy rewrite step of `write_sb`'s backing loop body:
keep the previous record, reset `offset`, generate fresh identifiers and
recompute the checksum. -/
def reident (csum : CacheSb → Nat) (u s : Nat) (sb : CacheSb) : CacheSb :=
  setCsum csum { sb with offset := SB_SECTOR, uuid := u, set_uuid := s }

/-- The `for (i = 1; i < sb_num; i++)` loop of `write_sb` writing the
secondary backing copies: `k` iterations remain, `i` is the current copy
index, `sb` the record of the previous iteration, `ctr` the position in
the generated-UUID stream (each iteration consumes a device UUID then a
set UUID). -/
def secondaries_loop (csum : CacheSb → Nat) (gen : Nat → Nat) :
    Nat → Nat → CacheSb → Disk → Nat → Disk × Nat
  | 0, _, _, disk, ctr => (disk, ctr)
  | k + 1, i, sb, disk, ctr =>
      let sb' := reident csum (gen ctr) (gen (ctr + 1)) sb
      secondaries_loop csum gen k (i + 1) sb' (disk.write i sb') (ctr + 2)

/-- `write_sb`: format one device.  Parameters mirror the C signature,
preceded by the external collaborators: `csum` the checksum function,
`gen`/`ctr` the generated-UUID stream and current position, `capacity`
the device size in 512-byte sectors (`getblocks`), `foreign` the outcome
of the libblkid probe (a foreign superblock/partition table was found).
The geometry arguments are narrowed to the `u16` record fields exactly as
the C assignments do; `sb_num` is the C `int` argument.  `.error` carries
the unchanged disk: every in-model failure path of the C code `exit`s
before its first `pwrite`.  The cache-path journal zeroing (step 5 of the
persistence sequence) touches only whole buckets past the record region
and is invisible at record granularity, as is the zeroing of the header
region and the optional 10-byte identity marker at offset 0. -/
def write_sb (csum : CacheSb → Nat) (gen : Nat → Nat) (ctr : Nat)
    (capacity : Nat) (foreign : Bool)
    (block_size bucket_size : Nat)
    (writeback discard wipe_bcache : Bool)
    (cache_replacement_policy : Nat)
    (data_offset : Nat)
    (set_uuid : Nat) (bdev : Bool) (bdev_uuid : Nat) (dirty : Bool)
    (sb_num : Int) (disk : Disk) : Except Disk (Disk × Nat) :=
  let sb0 := disk 0
  if sb0.magic = bcache_magic ∧ ¬ wipe_bcache then .error disk
  else if foreign then .error disk
  else
    let sb := sb_base block_size bucket_size set_uuid bdev_uuid bdev
    let branch : Except Unit CacheSb :=
      if SB_IS_BDEV sb then
        let sb := bdev_finish sb writeback dirty data_offset
        -- the int bound is converted to u64 for the comparison
        if sb.data_offset <
            (((BDEV_DATA_START_DEFAULT : Int) +
              sb_num * (SB_SECTOR : Int)).emod (2 ^ 64)).toNat
        then .error ()
        else .ok sb
      else
        let sb := cdev_derive sb capacity
        if sb.nbuckets < 128 then .error ()
        else .ok { sb with
          cache_discard := discard
          cache_replacement := cache_replacement_policy }
    match branch with
    | .error _ => .error disk
    | .ok sb =>
      let sb := setCsum csum sb
      let disk1 := disk.write 0 sb
      if SB_IS_BDEV sb then
        .ok (secondaries_loop csum gen ((sb_num - 1).toNat) 1 sb disk1 ctr)
      else
        .ok (disk1, ctr)

/-- A backing-device record as `write_sb` writes it with an explicit
data offset: used as a concrete device state in witnesses. -/
def exOffsetSb : CacheSb :=
  { CacheSb.zero with
    magic := bcache_magic
    version := BCACHE_SB_VERSION_BDEV_WITH_OFFSET
    uuid := 1
    set_uuid := 2
    bucket_size := 1024
    block_size := 8
    data_offset := 64 }

/-- A backing-device record as `write_sb` writes it when the default data
offset and the dirty flag are used: version `BDEV`, stored offset zero,
state dirty. -/
def exDirtySb : CacheSb :=
  { CacheSb.zero with
    magic := bcache_magic
    version := BCACHE_SB_VERSION_BDEV
    uuid := 1
    set_uuid := 2
    bucket_size := 1024
    block_size := 8
    bdev_state := BDEV_STATE_DIRTY }

/-- A device whose every copy is `exDirtySb`. -/
def exDirtyDisk : Disk := fun _ => exDirtySb

/-- A device whose every copy is `exOffsetSb`. -/
def exOffsetDisk : Disk := fun _ => exOffsetSb

/-- C1 counterexample: resetting a backing device whose record is dirty
(`BDEV_STATE_DIRTY`, written by `write_sb` when `-v` was used) succeeds
but zeroes the state field and retags the version, so the reset changes
more of the targeted copy than its identifiers and checksum. -/
theorem spec2proof_c1_counterexample :
    ((reset_backing_sb (fun _ => 0) true 0 11 12 exDirtyDisk).toOption.map
        (fun d => ((d 0).bdev_state, (d 0).version)) =
      some (0, BCACHE_SB_VERSION_BDEV_WITH_OFFSET))
    ∧ (exDirtyDisk 0).bdev_state = BDEV_STATE_DIRTY
    ∧ (exDirtyDisk 0).version = BCACHE_SB_VERSION_BDEV
    ∧ BDEV_STATE_DIRTY ≠ 0
    ∧ BCACHE_SB_VERSION_BDEV ≠ BCACHE_SB_VERSION_BDEV_WITH_OFFSET := by
  decide

/-- C1 (amended): a successful `reset_backing_sb` at copy `i` leaves
every other copy `j ≠ i` byte-identical; at copy `i` it preserves the
magic and the geometry (`block_size`, `bucket_size`, `data_offset`),
installs the new identifiers and a fresh checksum, and resets every
other field — the version tag is recomputed from the preserved offset
and the remaining fields (state, cache mode, cache fields) are zeroed
rather than preserved. -/
theorem spec2proof_c1 (csum : CacheSb → Nat) (wipe : Bool)
    (i su bu : Nat) (disk : Disk) (d' : Disk)
    (h : reset_backing_sb csum wipe i su bu disk = .ok d') :
    (∀ j, j ≠ i → d' j = disk j) ∧
    (d' i).block_size = (disk i).block_size ∧
    (d' i).bucket_size = (disk i).bucket_size ∧
    (d' i).data_offset = (disk i).data_offset ∧
    (d' i).magic = bcache_magic ∧
    (d' i).uuid = bu ∧ (d' i).set_uuid = su ∧
    (d' i).bdev_state = 0 ∧ (d' i).cache_mode = 0 ∧
    (d' i).nbuckets = 0 ∧ (d' i).cache_discard = false := by
  simp only [reset_backing_sb] at h
  split at h
  · split at h
    · exact Except.noConfusion h
    · split at h
      · exact Except.noConfusion h
      · split at h
        · exact Except.noConfusion h
        · split at h
          · exact Except.noConfusion h
          · split at h
            · -- data_offset differs from the default: stored verbatim
              split at h
              · exact Except.noConfusion h
              · injection h with h
                subst h
                refine ⟨fun j hj => by simp [Disk.write, hj], ?_⟩
                simp [Disk.write, setCsum, CacheSb.zero]
            · -- data_offset equals the default: the written record would
              -- store offset 0, so the consistency re-check always fails
              rename_i hoff
              split at h
              · exact Except.noConfusion h
              · rename_i hchk
                exfalso
                simp only [CacheSb.zero, ne_eq, not_not] at hchk hoff
                rw [hoff] at hchk
                simp [BDEV_DATA_START_DEFAULT] at hchk
  · exact Except.noConfusion h

/-- The device produced by the concrete reset used to witness the C1
amended theorem. -/
def c1wDisk : Disk :=
  (reset_backing_sb (fun _ => 0) true 0 11 12 exOffsetDisk).toOption.getD
    (fun _ => CacheSb.zero)

/-- Witness for C1 (amended) at a concrete reset. -/
theorem spec2proof_c1_witness :
    (∀ j, j ≠ 0 → c1wDisk j = exOffsetDisk j) ∧
    (c1wDisk 0).block_size = (exOffsetDisk 0).block_size ∧
    (c1wDisk 0).bucket_size = (exOffsetDisk 0).bucket_size ∧
    (c1wDisk 0).data_offset = (exOffsetDisk 0).data_offset ∧
    (c1wDisk 0).magic = bcache_magic ∧
    (c1wDisk 0).uuid = 12 ∧ (c1wDisk 0).set_uuid = 11 ∧
    (c1wDisk 0).bdev_state = 0 ∧ (c1wDisk 0).cache_mode = 0 ∧
    (c1wDisk 0).nbuckets = 0 ∧ (c1wDisk 0).cache_discard = false :=
  spec2proof_c1 (fun _ => 0) true 0 11 12 exOffsetDisk c1wDisk rfl

/-- C2: a successful reset writes back a record carrying `block_size`,
`bucket_size` and `data_offset` verbatim from the record previously read
at the targeted index, and its version tag is the offset-carrying
backing variant exactly when the preserved offset differs from the
default data-start constant, the plain backing variant otherwise. -/
theorem spec2proof_c2 (csum : CacheSb → Nat) (wipe : Bool)
    (i su bu : Nat) (disk : Disk) (d' : Disk)
    (h : reset_backing_sb csum wipe i su bu disk = .ok d') :
    (d' i).block_size = (disk i).block_size ∧
    (d' i).bucket_size = (disk i).bucket_size ∧
    (d' i).data_offset = (disk i).data_offset ∧
    ((d' i).version = BCACHE_SB_VERSION_BDEV_WITH_OFFSET ↔
      (disk i).data_offset ≠ BDEV_DATA_START_DEFAULT) ∧
    ((d' i).version = BCACHE_SB_VERSION_BDEV ↔
      (disk i).data_offset = BDEV_DATA_START_DEFAULT) := by
  simp only [reset_backing_sb] at h
  split at h
  · split at h
    · exact Except.noConfusion h
    · split at h
      · exact Except.noConfusion h
      · split at h
        · exact Except.noConfusion h
        · split at h
          · exact Except.noConfusion h
          · split at h
            · rename_i hoff
              split at h
              · exact Except.noConfusion h
              · injection h with h
                subst h
                simp [Disk.write, setCsum, CacheSb.zero, hoff,
                  BCACHE_SB_VERSION_BDEV, BCACHE_SB_VERSION_BDEV_WITH_OFFSET]
            · rename_i hoff
              split at h
              · exact Except.noConfusion h
              · rename_i hchk
                exfalso
                simp only [CacheSb.zero, ne_eq, not_not] at hchk hoff
                rw [hoff] at hchk
                simp [BDEV_DATA_START_DEFAULT] at hchk
  · exact Except.noConfusion h

/-- The device produced by the concrete reset used to witness C2. -/
def c2wDisk : Disk :=
  (reset_backing_sb (fun _ => 3) true 1 21 22 exOffsetDisk).toOption.getD
    (fun _ => CacheSb.zero)

/-- Witness for C2 at a concrete reset. -/
theorem spec2proof_c2_witness :
    (c2wDisk 1).block_size = (exOffsetDisk 1).block_size ∧
    (c2wDisk 1).bucket_size = (exOffsetDisk 1).bucket_size ∧
    (c2wDisk 1).data_offset = (exOffsetDisk 1).data_offset ∧
    ((c2wDisk 1).version = BCACHE_SB_VERSION_BDEV_WITH_OFFSET ↔
      (exOffsetDisk 1).data_offset ≠ BDEV_DATA_START_DEFAULT) ∧
    ((c2wDisk 1).version = BCACHE_SB_VERSION_BDEV ↔
      (exOffsetDisk 1).data_offset = BDEV_DATA_START_DEFAULT) :=
  spec2proof_c2 (fun _ => 3) true 1 21 22 exOffsetDisk c2wDisk rfl

/-- C3: `reset_backing_sb` fails, leaving the device unchanged, whenever
the record at the targeted index lacks the bcache magic, or the supplied
device UUID equals the stored one, or the supplied set UUID equals the
stored one. -/
theorem spec2proof_c3 (csum : CacheSb → Nat) (wipe : Bool)
    (i su bu : Nat) (disk : Disk)
    (h : (disk i).magic ≠ bcache_magic ∨ bu = (disk i).uuid ∨
         su = (disk i).set_uuid) :
    reset_backing_sb csum wipe i su bu disk = .error disk := by
  simp only [reset_backing_sb]
  rcases h with hm | hu | hs
  · rw [if_neg hm]
  · split
    · split
      · rfl
      · split
        · rfl
        · rw [if_pos hu.symm]
    · rfl
  · split
    · split
      · rfl
      · split
        · rfl
        · split
          · rfl
          · rw [if_pos hs.symm]
    · rfl

/-- Witness for C3: resetting a device with no bcache magic fails. -/
theorem spec2proof_c3_witness :
    (((fun _ => CacheSb.zero : Disk) 0).magic ≠ bcache_magic ∨
      (2 : Nat) = ((fun _ => CacheSb.zero : Disk) 0).uuid ∨
      (1 : Nat) = ((fun _ => CacheSb.zero : Disk) 0).set_uuid) ∧
    reset_backing_sb (fun _ => 0) true 0 1 2 (fun _ => CacheSb.zero) =
      .error (fun _ => CacheSb.zero) :=
  ⟨Or.inl (by decide),
   spec2proof_c3 (fun _ => 0) true 0 1 2 (fun _ => CacheSb.zero)
     (Or.inl (by decide))⟩

/-- Re-identifying twice overwrites the first re-identification: only
`offset`, the identifiers and the checksum of the previous record are
touched, and all of them are overwritten again. -/
theorem reident_reident (c : CacheSb → Nat) (u s u' s' : Nat)
    (sb : CacheSb) : reident c u s (reident c u' s' sb) = reident c u s sb :=
  rfl

/-- `reident` leaves every field outside offset/identifiers/checksum
unchanged. -/
theorem reident_fields (c : CacheSb → Nat) (u s : Nat) (sb : CacheSb) :
    (reident c u s sb).block_size = sb.block_size ∧
    (reident c u s sb).bucket_size = sb.bucket_size ∧
    (reident c u s sb).version = sb.version ∧
    (reident c u s sb).data_offset = sb.data_offset ∧
    (reident c u s sb).magic = sb.magic ∧
    (reident c u s sb).bdev_state = sb.bdev_state ∧
    (reident c u s sb).cache_mode = sb.cache_mode ∧
    (reident c u s sb).uuid = u ∧
    (reident c u s sb).set_uuid = s :=
  ⟨rfl, rfl, rfl, rfl, rfl, rfl, rfl, rfl, rfl⟩

/-- A record produced by `setCsum` carries the checksum of itself with
the checksum field cleared. -/
theorem setCsum_valid (c : CacheSb → Nat) (sb : CacheSb) :
    (setCsum c sb).csum = c { setCsum c sb with csum := 0 } :=
  rfl

/-- The secondary loop advances the UUID stream by two per iteration. -/
theorem secondaries_loop_snd (c : CacheSb → Nat) (gen : Nat → Nat)
    (k : Nat) : ∀ (i : Nat) (sb : CacheSb) (disk : Disk) (ctr : Nat),
    (secondaries_loop c gen k i sb disk ctr).2 = ctr + 2 * k := by
  induction k with
  | zero => intro i sb disk ctr; simp [secondaries_loop]
  | succ n ih =>
      intro i sb disk ctr
      simp only [secondaries_loop]
      rw [ih]
      omega

/-- The secondary loop writes only at indices in `[i, i + k)`. -/
theorem secondaries_loop_frame (c : CacheSb → Nat) (gen : Nat → Nat)
    (k : Nat) : ∀ (i j : Nat) (sb : CacheSb) (disk : Disk) (ctr : Nat),
    (j < i ∨ i + k ≤ j) →
    (secondaries_loop c gen k i sb disk ctr).1 j = disk j := by
  induction k with
  | zero => intro i j sb disk ctr _; simp [secondaries_loop]
  | succ n ih =>
      intro i j sb disk ctr hj
      simp only [secondaries_loop]
      rw [ih (i + 1) j _ _ _ (by omega)]
      have : j ≠ i := by omega
      simp [Disk.write, this]

/-- The record the secondary loop leaves at index `j ∈ [i, i + k)`:
the entry record re-identified with the `2 * (j - i)`-th and following
generated UUIDs. -/
theorem secondaries_loop_get (c : CacheSb → Nat) (gen : Nat → Nat)
    (k : Nat) : ∀ (i j : Nat) (sb : CacheSb) (disk : Disk) (ctr : Nat),
    i ≤ j → j < i + k →
    (secondaries_loop c gen k i sb disk ctr).1 j =
      reident c (gen (ctr + 2 * (j - i))) (gen (ctr + 2 * (j - i) + 1)) sb := by
  induction k with
  | zero => intro i j sb disk ctr h1 h2; omega
  | succ n ih =>
      intro i j sb disk ctr h1 h2
      simp only [secondaries_loop]
      by_cases hj : j = i
      · subst hj
        rw [secondaries_loop_frame c gen n (j + 1) j _ _ _ (Or.inl (by omega))]
        simp [Disk.write]
      · rw [ih (i + 1) j _ _ _ (by omega) (by omega), reident_reident]
        have e1 : ctr + 2 + 2 * (j - (i + 1)) = ctr + 2 * (j - i) := by omega
        rw [e1]

/-- Success inversion for the backing path of `write_sb`: the primary
record written at index 0, the re-identified copies at `1 .. sb_num-1`,
indices past the copies untouched, and the UUID stream advanced twice
per secondary. -/
theorem write_sb_bdev_inv (c : CacheSb → Nat) (gen : Nat → Nat)
    (ctr capacity : Nat) (foreign : Bool) (bs ks : Nat)
    (wb dc wp dt : Bool) (pol doff su bu : Nat) (n : Int)
    (disk : Disk) (d' : Disk) (ctr' : Nat)
    (h : write_sb c gen ctr capacity foreign bs ks wb dc wp pol doff su
          true bu dt n disk = .ok (d', ctr')) :
    d' 0 = setCsum c (bdev_finish (sb_base bs ks su bu true) wb dt doff) ∧
    (∀ j, 1 ≤ j → j < (n - 1).toNat + 1 →
      d' j = reident c (gen (ctr + 2 * (j - 1))) (gen (ctr + 2 * (j - 1) + 1))
        (setCsum c (bdev_finish (sb_base bs ks su bu true) wb dt doff))) ∧
    (∀ j, (n - 1).toNat + 1 ≤ j → d' j = disk j) ∧
    ctr' = ctr + 2 * (n - 1).toNat := by
  have hbd : SB_IS_BDEV (sb_base bs ks su bu true) = true := rfl
  have hbd2 : SB_IS_BDEV
      (setCsum c (bdev_finish (sb_base bs ks su bu true) wb dt doff)) =
      true := by
    simp only [SB_IS_BDEV, setCsum, bdev_finish, sb_base]
    split <;> split <;> rfl
  simp only [write_sb, hbd, if_true] at h
  split at h
  · exact Except.noConfusion h
  · split at h
    · exact Except.noConfusion h
    · split at h
      · exact Except.noConfusion h
      · rename_i sbv heq
        split at heq
        · exact Except.noConfusion heq
        · injection heq with heq
          subst heq
          rw [hbd2] at h
          simp only [if_true] at h
          injection h with h
          have hd : d' = (secondaries_loop c gen ((n - 1).toNat) 1
              (setCsum c (bdev_finish (sb_base bs ks su bu true) wb dt doff))
              (Disk.write disk 0 (setCsum c
                (bdev_finish (sb_base bs ks su bu true) wb dt doff))) ctr).1 := by
            rw [h]
          have hc : ctr' = (secondaries_loop c gen ((n - 1).toNat) 1
              (setCsum c (bdev_finish (sb_base bs ks su bu true) wb dt doff))
              (Disk.write disk 0 (setCsum c
                (bdev_finish (sb_base bs ks su bu true) wb dt doff))) ctr).2 := by
            rw [h]
          refine ⟨?_, ?_, ?_, ?_⟩
          · rw [hd,
              secondaries_loop_frame c gen _ 1 0 _ _ _ (Or.inl (by omega))]
            simp [Disk.write]
          · intro j h1 h2
            rw [hd,
              secondaries_loop_get c gen _ 1 j _ _ _ (by omega) (by omega)]
          · intro j hj
            rw [hd,
              secondaries_loop_frame c gen _ 1 j _ _ _ (Or.inr (by omega))]
            have : j ≠ 0 := by omega
            simp [Disk.write, this]
          · rw [hc, secondaries_loop_snd]

/-- A re-identified record also carries a valid checksum. -/
theorem reident_valid (c : CacheSb → Nat) (u s : Nat) (sb : CacheSb) :
    (reident c u s sb).csum = c { reident c u s sb with csum := 0 } :=
  rfl

/-- Field values of the primary backing record `write_sb` writes. -/
theorem bdev_primary_fields (c : CacheSb → Nat) (bs ks su bu doff : Nat)
    (wb dt : Bool) :
    (setCsum c (bdev_finish (sb_base bs ks su bu true) wb dt doff)).magic
        = bcache_magic ∧
    (setCsum c (bdev_finish (sb_base bs ks su bu true) wb dt doff)).uuid
        = bu ∧
    (setCsum c (bdev_finish (sb_base bs ks su bu true) wb dt doff)).set_uuid
        = su ∧
    (setCsum c (bdev_finish (sb_base bs ks su bu true) wb dt doff)).block_size
        = bs % 65536 ∧
    (setCsum c (bdev_finish (sb_base bs ks su bu true) wb dt doff)).bucket_size
        = ks % 65536 ∧
    (setCsum c (bdev_finish (sb_base bs ks su bu true) wb dt doff)).bdev_state
        = (if dt then BDEV_STATE_DIRTY else 0) ∧
    (setCsum c (bdev_finish (sb_base bs ks su bu true) wb dt doff)).cache_mode
        = (if wb then CACHE_MODE_WRITEBACK else CACHE_MODE_WRITETHROUGH) ∧
    (setCsum c (bdev_finish (sb_base bs ks su bu true) wb dt doff)).version
        = (if doff ≠ BDEV_DATA_START_DEFAULT
           then BCACHE_SB_VERSION_BDEV_WITH_OFFSET
           else BCACHE_SB_VERSION_BDEV) ∧
    (setCsum c (bdev_finish (sb_base bs ks su bu true) wb dt doff)).data_offset
        = (if doff ≠ BDEV_DATA_START_DEFAULT then doff else 0) := by
  simp only [setCsum, bdev_finish, sb_base, CacheSb.zero]
  split <;> split <;> simp_all

/-- C4: a successful backing-device format with copy count `n ≥ 1` writes
exactly `n` records at the fixed copy offsets: every index below `n`
holds a freshly written bcache record with a valid checksum, all copies
share `block_size`, `bucket_size`, `version` and `data_offset`, every
secondary copy carries identifiers drawn from the generated-UUID stream,
pairwise distinct across secondaries when the stream is injective, and
every index at or above `n` is untouched. -/
theorem spec2proof_c4 (c : CacheSb → Nat) (gen : Nat → Nat)
    (ctr capacity : Nat) (foreign : Bool) (bs ks : Nat)
    (wb dc wp dt : Bool) (pol doff su bu : Nat) (n : Int)
    (disk : Disk) (d' : Disk) (ctr' : Nat)
    (hgen : Function.Injective gen)
    (hn : 1 ≤ n)
    (h : write_sb c gen ctr capacity foreign bs ks wb dc wp pol doff su
          true bu dt n disk = .ok (d', ctr')) :
    (∀ j, n.toNat ≤ j → d' j = disk j) ∧
    (∀ j, j < n.toNat →
      (d' j).magic = bcache_magic ∧ (d' j).csum = c { d' j with csum := 0 }) ∧
    (∀ j, j < n.toNat →
      (d' j).block_size = (d' 0).block_size ∧
      (d' j).bucket_size = (d' 0).bucket_size ∧
      (d' j).version = (d' 0).version ∧
      (d' j).data_offset = (d' 0).data_offset) ∧
    (∀ j, 1 ≤ j → j < n.toNat →
      (d' j).uuid = gen (ctr + 2 * (j - 1)) ∧
      (d' j).set_uuid = gen (ctr + 2 * (j - 1) + 1)) ∧
    (∀ j k, 1 ≤ j → j < k → k < n.toNat →
      (d' j).uuid ≠ (d' k).uuid ∧ (d' j).set_uuid ≠ (d' k).set_uuid) := by
  obtain ⟨h0, hsec, hfr, hctr⟩ := write_sb_bdev_inv c gen ctr capacity
    foreign bs ks wb dc wp dt pol doff su bu n disk d' ctr' h
  have hN : (n - 1).toNat + 1 = n.toNat := by omega
  rw [hN] at hsec hfr
  have hid : ∀ j, 1 ≤ j → j < n.toNat →
      (d' j).uuid = gen (ctr + 2 * (j - 1)) ∧
      (d' j).set_uuid = gen (ctr + 2 * (j - 1) + 1) := by
    intro j h1 h2
    rw [hsec j h1 h2]
    exact ⟨(reident_fields _ _ _ _).2.2.2.2.2.2.2.1,
           (reident_fields _ _ _ _).2.2.2.2.2.2.2.2⟩
  refine ⟨hfr, ?_, ?_, hid, ?_⟩
  · intro j hj
    rcases Nat.eq_zero_or_pos j with rfl | hj1
    · rw [h0]
      exact ⟨(bdev_primary_fields c bs ks su bu doff wb dt).1,
             setCsum_valid c _⟩
    · rw [hsec j hj1 hj]
      exact ⟨((reident_fields _ _ _ _).2.2.2.2.1).trans
               (bdev_primary_fields c bs ks su bu doff wb dt).1,
             reident_valid _ _ _ _⟩
  · intro j hj
    rcases Nat.eq_zero_or_pos j with rfl | hj1
    · exact ⟨rfl, rfl, rfl, rfl⟩
    · rw [hsec j hj1 hj, h0]
      exact ⟨(reident_fields _ _ _ _).1, (reident_fields _ _ _ _).2.1,
             (reident_fields _ _ _ _).2.2.1, (reident_fields _ _ _ _).2.2.2.1⟩
  · intro j k h1 h2 h3
    obtain ⟨hju, hjs⟩ := hid j h1 (by omega)
    obtain ⟨hku, hks⟩ := hid k (by omega) h3
    rw [hju, hjs, hku, hks]
    constructor
    · intro he
      have := hgen he
      omega
    · intro he
      have := hgen he
      omega

/-- Result of a concrete backing-device format with three copies, used
to witness C4. -/
def c4wPair : Disk × Nat :=
  (write_sb (fun _ => 0) id 2 0 false 8 1024 false false false 0 64 5
    true 6 false 3 (fun _ => CacheSb.zero)).toOption.getD
    (fun _ => CacheSb.zero, 0)

/-- Witness for C4 at a concrete three-copy backing format. -/
theorem spec2proof_c4_witness :
    (∀ j, 3 ≤ j → c4wPair.1 j = (fun _ => CacheSb.zero : Disk) j) ∧
    (∀ j, j < 3 →
      (c4wPair.1 j).magic = bcache_magic ∧
      (c4wPair.1 j).csum = (fun _ => 0 : CacheSb → Nat)
        { c4wPair.1 j with csum := 0 }) ∧
    (∀ j, j < 3 →
      (c4wPair.1 j).block_size = (c4wPair.1 0).block_size ∧
      (c4wPair.1 j).bucket_size = (c4wPair.1 0).bucket_size ∧
      (c4wPair.1 j).version = (c4wPair.1 0).version ∧
      (c4wPair.1 j).data_offset = (c4wPair.1 0).data_offset) ∧
    (∀ j, 1 ≤ j → j < 3 →
      (c4wPair.1 j).uuid = 2 + 2 * (j - 1) ∧
      (c4wPair.1 j).set_uuid = 2 + 2 * (j - 1) + 1) ∧
    (∀ j k, 1 ≤ j → j < k → k < 3 →
      (c4wPair.1 j).uuid ≠ (c4wPair.1 k).uuid ∧
      (c4wPair.1 j).set_uuid ≠ (c4wPair.1 k).set_uuid) :=
  spec2proof_c4 (fun _ => 0) id 2 0 false 8 1024 false false false false
    0 64 5 6 3 (fun _ => CacheSb.zero) c4wPair.1 c4wPair.2
    (fun _ _ hab => hab) (by decide) rfl

/-- Success inversion for the cache path of `write_sb`: exactly the
primary record is written, the bucket-count check passed, and the UUID
stream is not consumed. -/
theorem write_sb_cdev_inv (c : CacheSb → Nat) (gen : Nat → Nat)
    (ctr capacity : Nat) (foreign : Bool) (bs ks : Nat)
    (wb dc wp dt : Bool) (pol doff su bu : Nat) (n : Int)
    (disk : Disk) (d' : Disk) (ctr' : Nat)
    (h : write_sb c gen ctr capacity foreign bs ks wb dc wp pol doff su
          false bu dt n disk = .ok (d', ctr')) :
    d' 0 = setCsum c { cdev_derive (sb_base bs ks su bu false) capacity with
        cache_discard := dc, cache_replacement := pol } ∧
    (∀ j, 1 ≤ j → d' j = disk j) ∧
    ctr' = ctr ∧
    ¬ (cdev_derive (sb_base bs ks su bu false) capacity).nbuckets < 128 := by
  have hbd : SB_IS_BDEV (sb_base bs ks su bu false) = false := rfl
  simp only [write_sb, hbd, Bool.false_eq_true, if_false] at h
  split at h
  · exact Except.noConfusion h
  · split at h
    · exact Except.noConfusion h
    · split at h
      · exact Except.noConfusion h
      · rename_i sbv heq
        split at heq
        · exact Except.noConfusion heq
        · rename_i hnb
          injection heq with heq
          subst heq
          have hbd2 : SB_IS_BDEV (setCsum c
              { cdev_derive (sb_base bs ks su bu false) capacity with
                cache_discard := dc, cache_replacement := pol }) = false := rfl
          rw [hbd2] at h
          simp only [Bool.false_eq_true, if_false] at h
          injection h with h
          injection h with h1 h2
          refine ⟨?_, ?_, h2.symm, hnb⟩
          · rw [← h1]
            simp [Disk.write]
          · intro j hj
            rw [← h1]
            have : j ≠ 0 := by omega
            simp [Disk.write, this]

/-- C6: a successful cache-device format writes a primary record that
reads back exactly the supplied `bucket_size`, `block_size` and
`set_uuid`, and a bucket count equal to the device capacity in sectors
divided by the bucket size.  The supplied sizes are 16-bit sector counts
(as `hatoi_validate` and the block-size probe guarantee for every value
`main` can pass down). -/
theorem spec2proof_c6 (c : CacheSb → Nat) (gen : Nat → Nat)
    (ctr capacity : Nat) (foreign : Bool) (bs ks : Nat)
    (wb dc wp dt : Bool) (pol doff su bu : Nat) (n : Int)
    (disk : Disk) (d' : Disk) (ctr' : Nat)
    (hbs : bs < 65536) (hks : ks < 65536)
    (h : write_sb c gen ctr capacity foreign bs ks wb dc wp pol doff su
          false bu dt n disk = .ok (d', ctr')) :
    (d' 0).bucket_size = ks ∧
    (d' 0).block_size = bs ∧
    (d' 0).set_uuid = su ∧
    (d' 0).nbuckets = capacity / ks := by
  obtain ⟨h0, -, -, -⟩ := write_sb_cdev_inv c gen ctr capacity foreign
    bs ks wb dc wp dt pol doff su bu n disk d' ctr' h
  rw [h0]
  simp [setCsum, cdev_derive, sb_base, Nat.mod_eq_of_lt hbs,
    Nat.mod_eq_of_lt hks]

/-- Result of a concrete cache-device format, used to witness C6. -/
def c6wPair : Disk × Nat :=
  (write_sb (fun _ => 0) id 0 1048576 false 8 1024 false false false 0
    16 5 false 6 false 1 (fun _ => CacheSb.zero)).toOption.getD
    (fun _ => CacheSb.zero, 0)

/-- Witness for C6 at a concrete cache-device format. -/
theorem spec2proof_c6_witness :
    (8 : Nat) < 65536 ∧ (1024 : Nat) < 65536 ∧
    ((c6wPair.1 0).bucket_size = 1024 ∧
     (c6wPair.1 0).block_size = 8 ∧
     (c6wPair.1 0).set_uuid = 5 ∧
     (c6wPair.1 0).nbuckets = 1048576 / 1024) :=
  ⟨by decide, by decide,
   spec2proof_c6 (fun _ => 0) id 0 1048576 false 8 1024 false false false
     false 0 16 5 6 1 (fun _ => CacheSb.zero) c6wPair.1 c6wPair.2
     (by decide) (by decide) rfl⟩

/-- The digit-accumulation loop of `strtoll` in base 10: consume leading
digits into the accumulator, return the value and the rest of the
string. -/
def parseNum : List Char → Nat → Nat × List Char
  | [], acc => (acc, [])
  | ch :: rest, acc =>
      if ch.isDigit then parseNum rest (acc * 10 + (ch.toNat - 48))
      else (acc, ch :: rest)

/-- Sign-and-digit part of `strtoll` in base 10, after whitespace
skipping. -/
def strtoll10_core : List Char → Int × List Char
  | [] => (0, [])
  | ch :: rest =>
      if ch = '-' then
        let p := parseNum rest 0
        (-(p.1 : Int), p.2)
      else if ch = '+' then
        let p := parseNum rest 0
        ((p.1 : Int), p.2)
      else
        let p := parseNum (ch :: rest) 0
        ((p.1 : Int), p.2)

/-- `strtoll(s, &e, 10)`: skip whitespace, optional sign, digits; return
the value and the suffix `e` points at. -/
def strtoll10 (s : List Char) : Int × List Char :=
  strtoll10_core (s.dropWhile Char.isWhitespace)

/-- The suffix multiplier of `hatoi`'s fall-through switch on `*e`:
t/T through k/K multiply by 1024 once per level passed through. -/
def suffix_mult (e : List Char) : Int :=
  match e with
  | [] => 1
  | ch :: _ =>
      if ch = 't' ∨ ch = 'T' then 1024 * 1024 * 1024 * 1024
      else if ch = 'g' ∨ ch = 'G' then 1024 * 1024 * 1024
      else if ch = 'm' ∨ ch = 'M' then 1024 * 1024
      else if ch = 'k' ∨ ch = 'K' then 1024
      else 1

/-- `hatoi`: human-readable size to byte count. -/
def hatoi (s : String) : Int :=
  let p := strtoll10 s.data
  p.1 * suffix_mult p.2

/-- `USHRT_MAX` of `limits.h`. -/
def USHRT_MAX : Nat := 65535

/-- `hatoi_validate`: the value (converted to `u64`) must be a power of
two, and its 512-byte sector count must fit a non-zero 16-bit count;
`none` models `exit(EXIT_FAILURE)`. -/
def hatoi_validate (s : String) : Option Nat :=
  let v : Nat := ((hatoi s) % (2 ^ 64)).toNat
  if v &&& (v - 1) ≠ 0 then none
  else
    let v := v / 512
    if v > USHRT_MAX then none
    else if v = 0 then none
    else some v

/-- The decimal value denoted by a digit string. -/
def decimal (ds : List Char) : Nat :=
  ds.foldl (fun a ch => a * 10 + (ch.toNat - 48)) 0

/-- The ten decimal digit characters. -/
def digitChars : List Char :=
  ['0', '1', '2', '3', '4', '5', '6', '7', '8', '9']

/-- The accepted suffixes and their byte multipliers: none, k/K, m/M,
g/G, t/T at 1024 per level. -/
def suffixMult : List (List Char × Nat) :=
  [([], 1), (['k'], 1024), (['K'], 1024),
   (['m'], 1024 * 1024), (['M'], 1024 * 1024),
   (['g'], 1024 * 1024 * 1024), (['G'], 1024 * 1024 * 1024),
   (['t'], 1024 * 1024 * 1024 * 1024), (['T'], 1024 * 1024 * 1024 * 1024)]

/-- The first character, if any, is not a digit: where a digit run must
stop. -/
def noDigitHead : List Char → Bool
  | [] => true
  | ch :: _ => ! ch.isDigit

/-- `parseNum` consumes exactly a leading digit run. -/
theorem parseNum_append (ds : List Char) : ∀ (acc : Nat) (rest : List Char),
    (∀ ch ∈ ds, ch.isDigit = true) →
    noDigitHead rest = true →
    parseNum (ds ++ rest) acc =
      (ds.foldl (fun a ch => a * 10 + (ch.toNat - 48)) acc, rest) := by
  induction ds with
  | nil =>
      intro acc rest _ hrest
      cases rest with
      | nil => rfl
      | cons ch rs =>
          simp only [noDigitHead, Bool.not_eq_true'] at hrest
          simp only [List.nil_append, parseNum, List.foldl_nil]
          rw [if_neg]
          simp [hrest]
  | cons d tl ih =>
      intro acc rest hds hrest
      simp only [List.cons_append, parseNum, List.foldl_cons]
      rw [if_pos (hds d (List.mem_cons_self d tl))]
      exact ih _ rest (fun ch hch => hds ch (List.mem_cons_of_mem d hch)) hrest

/-- The C power-of-two test: `v & (v - 1)` vanishes exactly on zero and
the powers of two (on `Nat`, where `0 - 1 = 0`, zero also passes, as it
does in C where `0u - 1` is all-ones). -/
theorem land_pred_eq_zero_iff (b : Nat) :
    b &&& (b - 1) = 0 ↔ b = 0 ∨ ∃ k, b = 2 ^ k := by
  induction b using Nat.strong_induction_on with
  | _ b ih =>
    rcases Nat.eq_zero_or_pos b with rfl | hb
    · simp
    · rcases Nat.even_or_odd b with he | ho
      · obtain ⟨m, hm⟩ := he
        have hm2 : b = 2 * m := by omega
        have hmpos : 0 < m := by omega
        have key : b &&& (b - 1) = 2 * (m &&& (m - 1)) := by
          apply Nat.eq_of_testBit_eq
          intro i
          cases i with
          | zero =>
              rw [Nat.testBit_and, Nat.testBit_zero, Nat.testBit_zero,
                Nat.testBit_zero]
              have h1 : b % 2 = 0 := by omega
              have h2 : 2 * (m &&& (m - 1)) % 2 = 0 := by omega
              simp [h1, h2]
          | succ i =>
              rw [Nat.testBit_and, Nat.testBit_succ, Nat.testBit_succ,
                Nat.testBit_succ]
              have h1 : b / 2 = m := by omega
              have h2 : (b - 1) / 2 = m - 1 := by omega
              have h3 : 2 * (m &&& (m - 1)) / 2 = m &&& (m - 1) := by omega
              rw [h1, h2, h3, ← Nat.testBit_and]
        constructor
        · intro h0
          rw [key] at h0
          have hx : m &&& (m - 1) = 0 := by omega
          rcases (ih m (by omega)).mp hx with rfl | ⟨k, hk⟩
          · exact (Nat.lt_irrefl 0 hmpos).elim
          · exact Or.inr ⟨k + 1, by rw [hm2, hk, pow_succ]; ring⟩
        · rintro (rfl | ⟨k, hk⟩)
          · simp
          · rw [key]
            rcases Nat.eq_zero_or_pos k with rfl | hk1
            · rw [pow_zero] at hk
              omega
            · have hpk : (2 : Nat) ^ k = 2 * 2 ^ (k - 1) := by
                conv_lhs => rw [show k = (k - 1) + 1 by omega]
                rw [pow_succ]
                ring
              have hmk : m = 2 ^ (k - 1) := by omega
              rw [hmk, Nat.and_pow_two_sub_one_eq_mod, Nat.mod_self]
      · obtain ⟨m, hm⟩ := ho
        have key : b &&& (b - 1) = 2 * m := by
          apply Nat.eq_of_testBit_eq
          intro i
          cases i with
          | zero =>
              rw [Nat.testBit_and, Nat.testBit_zero, Nat.testBit_zero,
                Nat.testBit_zero]
              have h1 : (b - 1) % 2 = 0 := by omega
              have h2 : 2 * m % 2 = 0 := by omega
              simp [h1, h2]
          | succ i =>
              rw [Nat.testBit_and, Nat.testBit_succ, Nat.testBit_succ,
                Nat.testBit_succ]
              have h1 : b / 2 = m := by omega
              have h2 : (b - 1) / 2 = m := by omega
              have h3 : 2 * m / 2 = m := by omega
              rw [h1, h2, h3, Bool.and_self]
        constructor
        · intro h0
          rw [key] at h0
          exact Or.inr ⟨0, by omega⟩
        · rintro (rfl | ⟨k, hk⟩)
          · simp
          · rw [key]
            rcases Nat.eq_zero_or_pos k with rfl | hk1
            · rw [pow_zero] at hk
              omega
            · exfalso
              have hpk : (2 : Nat) ^ k = 2 * 2 ^ (k - 1) := by
                conv_lhs => rw [show k = (k - 1) + 1 by omega]
                rw [pow_succ]
                ring
              omega

/-- Digit characters are digits and are not whitespace or sign marks. -/
theorem digitChars_props (ch : Char) (h : ch ∈ digitChars) :
    ch.isDigit = true ∧ ch.isWhitespace = false ∧ ch ≠ '-' ∧ ch ≠ '+' := by
  fin_cases h <;> exact ⟨by decide, by decide, by decide, by decide⟩

/-- Every accepted suffix starts with a non-digit (or is empty) and its
`hatoi` switch multiplier is the table multiplier. -/
theorem suffix_facts (suf : List Char) (mult : Nat)
    (h : (suf, mult) ∈ suffixMult) :
    noDigitHead suf = true ∧ suffix_mult suf = (mult : Int) := by
  fin_cases h <;> exact ⟨by decide, by decide⟩

/-- `strtoll10` on a digit run followed by a non-digit suffix parses the
run and leaves the suffix. -/
theorem strtoll10_digits (d : Char) (tl rest : List Char)
    (hd : d ∈ digitChars) (htl : ∀ ch ∈ tl, ch ∈ digitChars)
    (hrest : noDigitHead rest = true) :
    strtoll10 ((d :: tl) ++ rest) = ((decimal (d :: tl) : Int), rest) := by
  obtain ⟨hdd, hdw, hdm, hdp⟩ := digitChars_props d hd
  have hds : ∀ ch ∈ d :: tl, ch.isDigit = true := by
    intro ch hch
    rcases List.mem_cons.mp hch with rfl | hch
    · exact hdd
    · exact (digitChars_props ch (htl ch hch)).1
  simp only [strtoll10, List.cons_append, List.dropWhile_cons]
  rw [if_neg (by simp [hdw])]
  simp only [strtoll10_core]
  rw [if_neg hdm, if_neg hdp]
  rw [show d :: (tl ++ rest) = (d :: tl) ++ rest from rfl,
    parseNum_append (d :: tl) 0 rest hds hrest]
  rfl

/-- `hatoi` on a digit run with an accepted suffix: the decimal value
times the suffix multiplier. -/
theorem hatoi_eval (ds suf : List Char) (mult : Nat)
    (hmem : (suf, mult) ∈ suffixMult) (hds : ds ≠ [])
    (hdig : ∀ ch ∈ ds, ch ∈ digitChars) :
    hatoi (String.mk (ds ++ suf)) = ((decimal ds * mult : Nat) : Int) := by
  obtain ⟨d, tl, rfl⟩ : ∃ d tl, ds = d :: tl := by
    cases ds with
    | nil => exact absurd rfl hds
    | cons a b => exact ⟨a, b, rfl⟩
  obtain ⟨hnd, hsm⟩ := suffix_facts suf mult hmem
  have hdata : (String.mk ((d :: tl) ++ suf)).data = (d :: tl) ++ suf := rfl
  simp only [hatoi, hdata]
  rw [strtoll10_digits d tl suf (hdig d (List.mem_cons_self d tl))
    (fun ch hch => hdig ch (List.mem_cons_of_mem d hch)) hnd]
  simp only [hsm]
  push_cast
  ring

/-- C7: for every input string made of a decimal digit run denoting `n`
and an accepted suffix with multiplier `mult` (1024 per k/m/g/t level),
with `b = n * mult` bytes in `long long` range, `hatoi_validate` returns
the sector count `b / 512` exactly when `b` is a power of two whose
sector count lies in `[1, 65535]`, and fails (exits) otherwise — in
particular for every non-power-of-two or zero byte value and for every
value whose sector count is zero or exceeds the unsigned 16-bit range. -/
theorem spec2proof_c7 (ds suf : List Char) (mult : Nat)
    (hmem : (suf, mult) ∈ suffixMult) (hds : ds ≠ [])
    (hdig : ∀ ch ∈ ds, ch ∈ digitChars)
    (hrange : decimal ds * mult < 2 ^ 63) :
    (hatoi_validate (String.mk (ds ++ suf)) =
        some (decimal ds * mult / 512) ↔
      ((∃ k, decimal ds * mult = 2 ^ k) ∧
       1 ≤ decimal ds * mult / 512 ∧ decimal ds * mult / 512 ≤ 65535)) ∧
    (hatoi_validate (String.mk (ds ++ suf)) = none ↔
      ¬ ((∃ k, decimal ds * mult = 2 ^ k) ∧
         1 ≤ decimal ds * mult / 512 ∧ decimal ds * mult / 512 ≤ 65535)) := by
  have hlt64 : ((decimal ds * mult : Nat) : Int) < 2 ^ 64 := by
    exact_mod_cast lt_trans hrange (by norm_num : (2 : Nat) ^ 63 < 2 ^ 64)
  have hv : ((hatoi (String.mk (ds ++ suf))) % (2 ^ 64)).toNat =
      decimal ds * mult := by
    rw [hatoi_eval ds suf mult hmem hds hdig,
      Int.emod_eq_of_lt (Int.natCast_nonneg _) hlt64, Int.toNat_ofNat]
  have heval : hatoi_validate (String.mk (ds ++ suf)) =
      (if decimal ds * mult &&& (decimal ds * mult - 1) ≠ 0 then none
       else if decimal ds * mult / 512 > USHRT_MAX then none
       else if decimal ds * mult / 512 = 0 then none
       else some (decimal ds * mult / 512)) := by
    simp only [hatoi_validate, hv]
  have hPiff : (∃ k, decimal ds * mult = 2 ^ k) ↔
      (decimal ds * mult &&& (decimal ds * mult - 1) = 0 ∧
       decimal ds * mult ≠ 0) := by
    constructor
    · rintro ⟨k, hk⟩
      refine ⟨?_, by rw [hk]; exact (pow_pos (by norm_num) k).ne'⟩
      rw [hk, Nat.and_pow_two_sub_one_eq_mod, Nat.mod_self]
    · rintro ⟨h1, h2⟩
      rcases (land_pred_eq_zero_iff _).mp h1 with h0 | hk
      · exact absurd h0 h2
      · exact hk
  rw [heval]
  by_cases hp : decimal ds * mult &&& (decimal ds * mult - 1) = 0
  · rw [if_neg (not_not_intro hp)]
    by_cases h1 : decimal ds * mult / 512 > USHRT_MAX
    · rw [if_pos h1]
      have hnP : ¬ ((∃ k, decimal ds * mult = 2 ^ k) ∧
          1 ≤ decimal ds * mult / 512 ∧ decimal ds * mult / 512 ≤ 65535) := by
        rintro ⟨-, -, h3⟩
        simp only [USHRT_MAX] at h1
        omega
      exact ⟨by simp [hnP], by simp [hnP]⟩
    · rw [if_neg h1]
      by_cases h2 : decimal ds * mult / 512 = 0
      · rw [if_pos h2]
        have hnP : ¬ ((∃ k, decimal ds * mult = 2 ^ k) ∧
            1 ≤ decimal ds * mult / 512 ∧ decimal ds * mult / 512 ≤ 65535) := by
          rintro ⟨-, h3, -⟩
          omega
        exact ⟨by simp [hnP], by simp [hnP]⟩
      · rw [if_neg h2]
        have hP : (∃ k, decimal ds * mult = 2 ^ k) ∧
            1 ≤ decimal ds * mult / 512 ∧ decimal ds * mult / 512 ≤ 65535 := by
          refine ⟨hPiff.mpr ⟨hp, fun h0 => h2 (by rw [h0])⟩, by omega, ?_⟩
          simp only [USHRT_MAX] at h1
          omega
        exact ⟨by simp [hP], by simp [hP]⟩
  · rw [if_pos hp]
    have hnP : ¬ ((∃ k, decimal ds * mult = 2 ^ k) ∧
        1 ≤ decimal ds * mult / 512 ∧ decimal ds * mult / 512 ≤ 65535) := by
      rintro ⟨hk, -⟩
      exact hp (hPiff.mp hk).1
    exact ⟨by simp [hnP], by simp [hnP]⟩

/-- Witness for C7 at the input string `"4k"` (4096 bytes, 8 sectors). -/
theorem spec2proof_c7_witness :
    (hatoi_validate (String.mk (['4'] ++ ['k'])) =
        some (decimal ['4'] * 1024 / 512) ↔
      ((∃ k, decimal ['4'] * 1024 = 2 ^ k) ∧
       1 ≤ decimal ['4'] * 1024 / 512 ∧ decimal ['4'] * 1024 / 512 ≤ 65535)) ∧
    (hatoi_validate (String.mk (['4'] ++ ['k'])) = none ↔
      ¬ ((∃ k, decimal ['4'] * 1024 = 2 ^ k) ∧
         1 ≤ decimal ['4'] * 1024 / 512 ∧ decimal ['4'] * 1024 / 512 ≤ 65535)) :=
  spec2proof_c7 ['4'] ['k'] 1024 (by decide) (by decide) (by decide)
    (by decide)

/-- `get_parent_device` of bcache-check.c, over an abstract
pseudo-filesystem `fs` (the `access`-based existence test of
`is_path_exist`).  Scanning from the end: `digitRun` is the trailing
digit run; C's `digit_end` (the run's start index) stays 0 both when
there is no trailing digit and when the whole name is digits, and either
way the device is treated as a whole disk.  The first candidate strips
only the digit run; if its topology path does not exist and the
character before the run is a `p` not at index 0 (C's `end`), the
`p`-stripped candidate is tried; otherwise there is no parent.
Allocation failure (which C degrades to "no parent") cannot occur in the
model. -/
def get_parent_device (fs : String → Bool) (dev : String) : Option String :=
  let cs := dev.data
  let length := cs.length
  if length < 2 then none
  else
    let digitRun := (cs.reverse.takeWhile Char.isDigit).length
    let digit_end := if digitRun = 0 ∨ digitRun = length then 0
                     else length - digitRun
    if digit_end = 0 then none
    else
      let p1 := String.mk (cs.take digit_end)
      if fs ("/sys/block/" ++ p1 ++ "/" ++ dev ++ "/") then some p1
      else
        let pend := if cs.get? (digit_end - 1) = some 'p' ∧ digit_end - 1 ≠ 0
                    then digit_end - 1 else 0
        if pend = 0 then none
        else
          let p2 := String.mk (cs.take pend)
          if fs ("/sys/block/" ++ p2 ++ "/" ++ dev ++ "/") then some p2
          else none

/-- The pseudo-filesystem fixture of C8: the partition directories for
`sda1` under `sda` and for `nvme0n1p1` under `nvme0n1` exist; nothing
else does (in particular not `/sys/block/nvme0n1p/nvme0n1p1/`). -/
def c8fs (s : String) : Bool :=
  s == "/sys/block/sda/sda1/" || s == "/sys/block/nvme0n1/nvme0n1p1/"

/-- C8: under the fixture, `"sda1"` resolves to `"sda"` via the first
(digit-run-stripped) candidate, `"nvme0n1p1"` resolves to `"nvme0n1"`
via the second (`p`-stripped) candidate because the first candidate's
path does not exist, and `"sda"`, having no trailing digits, resolves to
no parent under every pseudo-filesystem. -/
theorem spec2proof_c8 :
    get_parent_device c8fs "sda1" = some "sda" ∧
    get_parent_device c8fs "nvme0n1p1" = some "nvme0n1" ∧
    c8fs "/sys/block/nvme0n1p/nvme0n1p1/" = false ∧
    (∀ fs : String → Bool, get_parent_device fs "sda" = none) :=
  ⟨by decide, by decide, by decide, fun fs => rfl⟩

/-- The set of devices seen by one invocation: each device name maps to
its record-level contents. -/
def DiskMap : Type := String → Disk

/-- Replace one device's contents in the map. -/
def DiskMap.write (m : DiskMap) (name : String) (d : Disk) : DiskMap :=
  fun s => if s = name then d else m s

/-- The replacement-policy name table of `make-bcache`. -/
def cache_replacement_policies : List String := ["lru", "fifo", "random"]

/-- `read_string_list`: index of the trimmed input in the table, or
`-EINVAL` (whitespace trimming stands in for C's `strim`). -/
def read_string_list (buf : String) (l : List String) : Int :=
  match l.findIdx? (fun x => x == buf.trim) with
  | some i => (i : Int)
  | none => -22

/-- One parsed command-line item, after `getopt_long`: each constructor
is one `case` of `main`'s option switch, with the `optarg` payload
(UUIDs already parsed, numeric payloads as the C `atoi`/`atoll`
results). -/
inductive Arg where
  | alcubierre
  | skipUdev
  | cache
  | bdev
  | bucket (s : String)
  | block (s : String)
  | writeback
  | wipeBcache
  | discardOpt
  | policy (s : String)
  | dataOffset (n : Int)
  | csetUuid (u : Nat)
  | bdevUuid (u : Nat)
  | sbNum (n : Int)
  | resetIdx (n : Int)
  | device (name : String)
deriving Repr, DecidableEq

/-- The local state of `main` during option processing. -/
structure MainState where
  alcubierre_dev : Bool
  skip_udev_register : Bool
  dirty : Bool
  bdev : Int
  cache_devices : List String
  backing_devices : List String
  block_size : Nat
  bucket_size : Nat
  writeback : Bool
  discard : Bool
  wipe_bcache : Bool
  cache_replacement_policy : Nat
  data_offset : Nat
  set_uuid : Nat
  bdev_uuid : Nat
  sb_idx : Int
  sb_num : Int
deriving Repr, DecidableEq

/-- `main`'s state before the option loop: both default UUIDs are drawn
from the generator (positions 0 and 1) before any option is processed;
`data_offset` is the u64 reading of `-1`. -/
def initState (gen : Nat → Nat) : MainState where
  alcubierre_dev := false
  skip_udev_register := false
  dirty := false
  bdev := -1
  cache_devices := []
  backing_devices := []
  block_size := 0
  bucket_size := 1024
  writeback := false
  discard := false
  wipe_bcache := false
  cache_replacement_policy := 0
  data_offset := 2 ^ 64 - 1
  set_uuid := gen 0
  bdev_uuid := gen 1
  sb_idx := -1
  sb_num := 1

/-- One iteration of `main`'s option switch.  Note the C fall-through
from the alcubierre case into the skip-udev case, that `-v` both stores
the UUID and unconditionally sets `dirty`, and that the numeric options
are range-checked against `BDEV_SB_NUM_MAX` (`.error` models
`exit(EXIT_FAILURE)` / `usage()`). -/
def parse_arg (st : MainState) : Arg → Except Unit MainState
  | .alcubierre =>
      .ok { st with alcubierre_dev := true, skip_udev_register := true }
  | .skipUdev => .ok { st with skip_udev_register := true }
  | .cache => .ok { st with bdev := 0 }
  | .bdev => .ok { st with bdev := 1 }
  | .bucket s =>
      match hatoi_validate s with
      | some v => .ok { st with bucket_size := v }
      | none => .error ()
  | .block s =>
      match hatoi_validate s with
      | some v => .ok { st with block_size := v }
      | none => .error ()
  | .writeback => .ok { st with writeback := true }
  | .wipeBcache => .ok { st with wipe_bcache := true }
  | .discardOpt => .ok { st with discard := true }
  | .policy s =>
      .ok { st with cache_replacement_policy :=
        ((read_string_list s cache_replacement_policies) % (2 ^ 32)).toNat }
  | .dataOffset n => .ok { st with data_offset := (n % (2 ^ 64)).toNat }
  | .csetUuid u => .ok { st with set_uuid := u }
  | .bdevUuid u => .ok { st with bdev_uuid := u, dirty := true }
  | .sbNum n =>
      if n > BDEV_SB_NUM_MAX then .error () else .ok { st with sb_num := n }
  | .resetIdx n =>
      if n < 0 ∨ n ≥ BDEV_SB_NUM_MAX then .error ()
      else .ok { st with sb_idx := n }
  | .device name =>
      if st.bdev = -1 then .error ()
      else if st.bdev ≠ 0 then
        .ok { st with backing_devices := st.backing_devices ++ [name] }
      else
        .ok { st with cache_devices := st.cache_devices ++ [name] }

/-- The whole option loop. -/
def parse_args : MainState → List Arg → Except Unit MainState
  | st, [] => .ok st
  | st, a :: rest =>
      match parse_arg st a with
      | .error e => .error e
      | .ok st' => parse_args st' rest

/-- One of `main`'s two `write_sb` loops, over the given device names,
threading the map of devices and the UUID-stream position; a failing
device aborts the run, keeping the writes already done (`.error`
carries the map at the failure point — there is no rollback). -/
def format_devices (csum : CacheSb → Nat) (gen : Nat → Nat)
    (capacity : String → Nat) (foreign : String → Bool)
    (bs ks : Nat) (wb dc wp : Bool) (pol doff su : Nat) (bdev : Bool)
    (bu : Nat) (dirty : Bool) (sbn : Int) :
    List String → DiskMap → Nat → Except DiskMap (DiskMap × Nat)
  | [], dm, ctr => .ok (dm, ctr)
  | dev :: rest, dm, ctr =>
      match write_sb csum gen ctr (capacity dev) (foreign dev) bs ks wb dc
          wp pol doff su bdev bu dirty sbn (dm dev) with
      | .error _ => .error dm
      | .ok (disk', ctr') =>
          format_devices csum gen capacity foreign bs ks wb dc wp pol doff
            su bdev bu dirty sbn rest (DiskMap.write dm dev disk') ctr'

/-- The two `write_sb` loops at the end of `main`: all cache devices
with copy count 1, then all backing devices with the requested copy
count, continuing the UUID stream from position 2 (the default UUIDs
used positions 0 and 1). -/
def main_format_stage (csum : CacheSb → Nat) (gen : Nat → Nat)
    (capacity : String → Nat) (foreign : String → Bool)
    (bs ks : Nat) (wb dc wp : Bool) (pol doff su bu : Nat)
    (dirty : Bool) (sbn : Int) (cacheDevs backingDevs : List String)
    (dm : DiskMap) : Except DiskMap DiskMap :=
  match format_devices csum gen capacity foreign bs ks wb dc wp pol doff
      su false bu dirty 1 cacheDevs dm 2 with
  | .error dmE => .error dmE
  | .ok (dm1, ctr1) =>
      match format_devices csum gen capacity foreign bs ks wb dc wp pol
          doff su true bu dirty sbn backingDevs dm1 ctr1 with
      | .error dmE => .error dmE
      | .ok (dm2, _) => .ok dm2

/-- `main` after `getopt_long`: generate the default UUIDs, fold the
options, require at least one device, derive a default block size from
the per-device probe when none was given, check bucket ≥ block, resolve
or validate the data offset against the space the superblock copies
need, then either reset one backing device by index or format all cache
devices (with copy count 1) followed by all backing devices (with the
requested copy count).  `.error` carries the device map as of the
failure. -/
def mainRun (csum : CacheSb → Nat) (gen : Nat → Nat)
    (get_blocksize : String → Nat) (capacity : String → Nat)
    (foreign : String → Bool) (args : List Arg) (dm : DiskMap) :
    Except DiskMap DiskMap :=
  match parse_args (initState gen) args with
  | .error _ => .error dm
  | .ok st =>
    if st.cache_devices = [] ∧ st.backing_devices = [] then .error dm
    else
      let block_size := if st.block_size = 0 then
          (st.cache_devices ++ st.backing_devices).foldl
            (fun b d => max b (get_blocksize d)) 0
        else st.block_size
      if st.bucket_size < block_size then .error dm
      else
        let minOff := ((BDEV_DATA_OFFSET st.sb_num) % (2 ^ 64)).toNat
        let doffR : Option Nat :=
          if st.data_offset = 2 ^ 64 - 1 then some minOff
          else if st.data_offset < minOff then none
          else some st.data_offset
        match doffR with
        | none => .error dm
        | some doff =>
          if st.sb_idx ≥ 0 then
            match st.backing_devices with
            | [b] =>
                match reset_backing_sb csum st.wipe_bcache st.sb_idx.toNat
                    st.set_uuid st.bdev_uuid (dm b) with
                | .error _ => .error dm
                | .ok disk' => .ok (DiskMap.write dm b disk')
            | _ => .error dm
          else
            main_format_stage csum gen capacity foreign block_size
              st.bucket_size st.writeback st.discard st.wipe_bcache
              st.cache_replacement_policy doff st.set_uuid st.bdev_uuid
              st.dirty st.sb_num st.cache_devices st.backing_devices dm

/-- C5: formatting a backing device with a caller-supplied data offset
smaller than the space needed by the requested number of superblock
copies fails in `main`'s offset validation, before any device is opened
or written: the device map is returned unchanged. -/
theorem spec2proof_c5 (csum : CacheSb → Nat) (gen : Nat → Nat)
    (get_blocksize capacity : String → Nat) (foreign : String → Bool)
    (dm : DiskMap) (dev : String) (n o : Int)
    (hn1 : 1 ≤ n) (hn2 : n ≤ BDEV_SB_NUM_MAX)
    (ho1 : 0 ≤ o) (ho2 : o < BDEV_DATA_OFFSET n) :
    mainRun csum gen get_blocksize capacity foreign
      [Arg.bdev, Arg.sbNum n, Arg.dataOffset o, Arg.device dev] dm =
      .error dm := by
  simp only [BDEV_SB_NUM_MAX] at hn2
  simp only [BDEV_DATA_OFFSET, BDEV_DATA_START_DEFAULT, SB_SECTOR] at ho2
  push_cast at ho2
  have hn8 : ¬ (n > BDEV_SB_NUM_MAX) := by
    simp only [BDEV_SB_NUM_MAX]
    omega
  have ho64 : (o % ((2 : Int) ^ 64)).toNat = o.toNat := by
    rw [Int.emod_eq_of_lt ho1 (by omega)]
  have hmin : (((BDEV_DATA_OFFSET n) % ((2 : Int) ^ 64))).toNat =
      (16 + n * 8).toNat := by
    simp only [BDEV_DATA_OFFSET, BDEV_DATA_START_DEFAULT, SB_SECTOR]
    rw [Int.emod_eq_of_lt (by push_cast; omega) (by push_cast; omega)]
    push_cast
    ring_nf
  simp only [mainRun, parse_args, parse_arg, initState, if_neg hn8,
    if_neg (show ¬ (1 : Int) = -1 by norm_num),
    if_pos (show (1 : Int) ≠ 0 by norm_num),
    ho64, hmin, List.nil_append, true_and, if_true,
    if_neg (show ¬ ([dev] = ([] : List String)) from
      fun h => List.noConfusion h),
    if_neg (show ¬ ((-1 : Int) ≥ 0) by norm_num)]
  split
  · rfl
  · rw [if_neg (show ¬ (o.toNat = 2 ^ 64 - 1) by omega),
      if_pos (show o.toNat < (16 + n * 8).toNat by omega)]

/-- Witness for C5: `-B -s 2 -o 5 sdb` is rejected with nothing written
(two copies need a data offset of at least 32 sectors). -/
theorem spec2proof_c5_witness :
    ((1 : Int) ≤ 2 ∧ (2 : Int) ≤ BDEV_SB_NUM_MAX ∧
      (0 : Int) ≤ 5 ∧ (5 : Int) < BDEV_DATA_OFFSET 2) ∧
    mainRun (fun _ => 0) id (fun _ => 1) (fun _ => 0) (fun _ => false)
      [Arg.bdev, Arg.sbNum 2, Arg.dataOffset 5, Arg.device "sdb"]
      (fun _ _ => CacheSb.zero) = .error (fun _ _ => CacheSb.zero) :=
  ⟨⟨by decide, by decide, by decide, by decide⟩,
   spec2proof_c5 (fun _ => 0) id (fun _ => 1) (fun _ => 0) (fun _ => false)
     (fun _ _ => CacheSb.zero) "sdb" 2 5 (by decide) (by decide)
     (by decide) (by decide)⟩

/-- C9: supplying `-v`/`--bdev-uuid` unconditionally sets the dirty
flag, so every superblock copy of a backing device formatted in that
invocation carries `BDEV_STATE_DIRTY`; in the same invocation without
`-v` every copy's state is zero. -/
theorem spec2proof_c9 (csum : CacheSb → Nat) (gen : Nat → Nat)
    (get_blocksize capacity : String → Nat) (foreign : String → Bool)
    (dm : DiskMap) (dev : String) (u : Nat) (n : Int)
    (dm1 dm2 : DiskMap)
    (hn1 : 1 ≤ n) (hn2 : n ≤ BDEV_SB_NUM_MAX)
    (h1 : mainRun csum gen get_blocksize capacity foreign
        [Arg.bdev, Arg.sbNum n, Arg.bdevUuid u, Arg.device dev] dm =
      .ok dm1)
    (h2 : mainRun csum gen get_blocksize capacity foreign
        [Arg.bdev, Arg.sbNum n, Arg.device dev] dm = .ok dm2) :
    (∀ i, i < n.toNat → (dm1 dev i).bdev_state = BDEV_STATE_DIRTY) ∧
    (∀ i, i < n.toNat → (dm2 dev i).bdev_state = 0) := by
  simp only [BDEV_SB_NUM_MAX] at hn2
  have hn8 : ¬ (n > BDEV_SB_NUM_MAX) := by
    simp only [BDEV_SB_NUM_MAX]
    omega
  have hmin : (((BDEV_DATA_OFFSET n) % ((2 : Int) ^ 64))).toNat =
      (16 + n * 8).toNat := by
    simp only [BDEV_DATA_OFFSET, BDEV_DATA_START_DEFAULT, SB_SECTOR]
    rw [Int.emod_eq_of_lt (by push_cast; omega) (by push_cast; omega)]
    push_cast
    ring_nf
  have hN : (n - 1).toNat + 1 = n.toNat := by omega
  constructor
  · simp only [mainRun, parse_args, parse_arg, initState, if_neg hn8,
      if_neg (show ¬ (1 : Int) = -1 by norm_num),
      if_pos (show (1 : Int) ≠ 0 by norm_num),
      List.nil_append, true_and, if_true, hmin,
      if_neg (show ¬ ([dev] = ([] : List String)) from
        fun h => List.noConfusion h),
      if_neg (show ¬ ((-1 : Int) ≥ 0) by norm_num),
      main_format_stage, format_devices] at h1
    split at h1
    · exact Except.noConfusion h1
    · split at h1
      · exact Except.noConfusion h1
      · rename_i dmx sndx heq
        split at heq
        · exact Except.noConfusion heq
        · rename_i disk1 ctr1 hw
          injection heq with heq
          rw [Prod.mk.injEq] at heq
          obtain ⟨hm, -⟩ := heq
          injection h1 with h1
          subst h1
          subst hm
          obtain ⟨h0, hsec, -, -⟩ := write_sb_bdev_inv csum gen 2
            (capacity dev) (foreign dev) _ 1024 false false false true 0 _
            (gen 0) u n (dm dev) disk1 ctr1 hw
          rw [hN] at hsec
          intro i hi
          simp only [DiskMap.write, if_pos rfl, if_true]
          rcases Nat.eq_zero_or_pos i with rfl | hi1
          · rw [h0]
            rw [(bdev_primary_fields csum _ 1024 (gen 0) u _ false
              true).2.2.2.2.2.1]
            simp
          · rw [hsec i hi1 hi, (reident_fields _ _ _ _).2.2.2.2.2.1,
              (bdev_primary_fields csum _ 1024 (gen 0) u _ false
                true).2.2.2.2.2.1]
            simp
  · simp only [mainRun, parse_args, parse_arg, initState, if_neg hn8,
      if_neg (show ¬ (1 : Int) = -1 by norm_num),
      if_pos (show (1 : Int) ≠ 0 by norm_num),
      List.nil_append, true_and, if_true, hmin,
      if_neg (show ¬ ([dev] = ([] : List String)) from
        fun h => List.noConfusion h),
      if_neg (show ¬ ((-1 : Int) ≥ 0) by norm_num),
      main_format_stage, format_devices] at h2
    split at h2
    · exact Except.noConfusion h2
    · split at h2
      · exact Except.noConfusion h2
      · rename_i dmx sndx heq
        split at heq
        · exact Except.noConfusion heq
        · rename_i disk2 ctr2 hw
          injection heq with heq
          rw [Prod.mk.injEq] at heq
          obtain ⟨hm, -⟩ := heq
          injection h2 with h2
          subst h2
          subst hm
          obtain ⟨h0, hsec, -, -⟩ := write_sb_bdev_inv csum gen 2
            (capacity dev) (foreign dev) _ 1024 false false false false 0 _
            (gen 0) (gen 1) n (dm dev) disk2 ctr2 hw
          rw [hN] at hsec
          intro i hi
          simp only [DiskMap.write, if_pos rfl, if_true]
          rcases Nat.eq_zero_or_pos i with rfl | hi1
          · rw [h0]
            rw [(bdev_primary_fields csum _ 1024 (gen 0) (gen 1) _ false
              false).2.2.2.2.2.1]
            simp
          · rw [hsec i hi1 hi, (reident_fields _ _ _ _).2.2.2.2.2.1,
              (bdev_primary_fields csum _ 1024 (gen 0) (gen 1) _ false
                false).2.2.2.2.2.1]
            simp

/-- Device map of a concrete two-copy backing format with `-v` supplied,
for the C9 witness. -/
def c9wA : DiskMap :=
  (mainRun (fun _ => 0) id (fun _ => 1) (fun _ => 0) (fun _ => false)
    [Arg.bdev, Arg.sbNum 2, Arg.bdevUuid 7, Arg.device "sdc"]
    (fun _ _ => CacheSb.zero)).toOption.getD (fun _ _ => CacheSb.zero)

/-- Device map of the same format without `-v`, for the C9 witness. -/
def c9wB : DiskMap :=
  (mainRun (fun _ => 0) id (fun _ => 1) (fun _ => 0) (fun _ => false)
    [Arg.bdev, Arg.sbNum 2, Arg.device "sdc"]
    (fun _ _ => CacheSb.zero)).toOption.getD (fun _ _ => CacheSb.zero)

/-- Witness for C9 at a concrete two-copy backing format. -/
theorem spec2proof_c9_witness :
    (∀ i, i < 2 → (c9wA "sdc" i).bdev_state = BDEV_STATE_DIRTY) ∧
    (∀ i, i < 2 → (c9wB "sdc" i).bdev_state = 0) :=
  spec2proof_c9 (fun _ => 0) id (fun _ => 1) (fun _ => 0) (fun _ => false)
    (fun _ _ => CacheSb.zero) "sdc" 7 2 c9wA c9wB (by decide) (by decide)
    rfl rfl

/-- Success inversion of one step of `main`'s device loop. -/
theorem format_devices_cons_inv (csum : CacheSb → Nat) (gen : Nat → Nat)
    (capacity : String → Nat) (foreign : String → Bool)
    (bs ks : Nat) (wb dc wp : Bool) (pol doff su : Nat) (bdev : Bool)
    (bu : Nat) (dirty : Bool) (sbn : Int) (dev : String)
    (rest : List String) (dm : DiskMap) (ctr : Nat) (dmF : DiskMap)
    (ctrF : Nat)
    (h : format_devices csum gen capacity foreign bs ks wb dc wp pol doff
          su bdev bu dirty sbn (dev :: rest) dm ctr = .ok (dmF, ctrF)) :
    ∃ disk' ctr',
      write_sb csum gen ctr (capacity dev) (foreign dev) bs ks wb dc wp
        pol doff su bdev bu dirty sbn (dm dev) = .ok (disk', ctr') ∧
      format_devices csum gen capacity foreign bs ks wb dc wp pol doff su
        bdev bu dirty sbn rest (DiskMap.write dm dev disk') ctr' =
        .ok (dmF, ctrF) := by
  simp only [format_devices] at h
  split at h
  · exact Except.noConfusion h
  · rename_i d c hw
    exact ⟨d, c, hw, h⟩


/-- Success inversion of `main`'s write stage: both loops succeeded and
the final map is the backing loop's. -/
theorem main_format_stage_inv (csum : CacheSb → Nat) (gen : Nat → Nat)
    (capacity : String → Nat) (foreign : String → Bool)
    (bs ks : Nat) (wb dc wp : Bool) (pol doff su bu : Nat)
    (dirty : Bool) (sbn : Int) (cacheDevs backingDevs : List String)
    (dm : DiskMap) (dm' : DiskMap)
    (h : main_format_stage csum gen capacity foreign bs ks wb dc wp pol
          doff su bu dirty sbn cacheDevs backingDevs dm = .ok dm') :
    ∃ dm1 ctr1 ctr2,
      format_devices csum gen capacity foreign bs ks wb dc wp pol doff su
        false bu dirty 1 cacheDevs dm 2 = .ok (dm1, ctr1) ∧
      format_devices csum gen capacity foreign bs ks wb dc wp pol doff su
        true bu dirty sbn backingDevs dm1 ctr1 = .ok (dm', ctr2) := by
  simp only [main_format_stage] at h
  split at h
  · exact Except.noConfusion h
  · rename_i dm1 ctr1 hC
    split at h
    · exact Except.noConfusion h
    · rename_i dm2 ctr2 hB
      injection h with h
      subst h
      exact ⟨dm1, ctr1, ctr2, hC, hB⟩

/-- Success inversion of `mainRun` in the format scenario: when the
options parse to `st`, at least one device is present, no reset index
was given and the data offset was left at its default, a successful run
is a successful write stage with the derived block size and resolved
offset. -/
theorem mainRun_ok_inv (csum : CacheSb → Nat) (gen : Nat → Nat)
    (get_blocksize capacity : String → Nat) (foreign : String → Bool)
    (args : List Arg) (dm : DiskMap) (dmR : DiskMap) (st : MainState)
    (hp : parse_args (initState gen) args = .ok st)
    (hne : ¬ (st.cache_devices = [] ∧ st.backing_devices = []))
    (hsb : ¬ st.sb_idx ≥ 0)
    (hdoff : st.data_offset = 2 ^ 64 - 1)
    (h : mainRun csum gen get_blocksize capacity foreign args dm =
      .ok dmR) :
    main_format_stage csum gen capacity foreign
      (if st.block_size = 0 then
        (st.cache_devices ++ st.backing_devices).foldl
          (fun b d => max b (get_blocksize d)) 0
       else st.block_size)
      st.bucket_size st.writeback st.discard st.wipe_bcache
      st.cache_replacement_policy
      (((BDEV_DATA_OFFSET st.sb_num) % ((2 : Int) ^ 64)).toNat)
      st.set_uuid st.bdev_uuid st.dirty st.sb_num
      st.cache_devices st.backing_devices dm = .ok dmR := by
  simp only [mainRun, hp, if_neg hne, if_pos hdoff, if_neg hsb] at h
  split at h
  · rename_i hbz
    rw [if_pos hbz]
    split at h
    · exact Except.noConfusion h
    · exact h
  · rename_i hbz
    rw [if_neg hbz]
    split at h
    · exact Except.noConfusion h
    · exact h

/-- C10: the default set UUID and device UUID are drawn from the
generator exactly once, before option processing (stream positions 0
and 1), so in an invocation with no explicit UUID options every
formatted device — both cache devices and the backing device's primary
record — carries the same `set_uuid = gen 0` and the same
`uuid = gen 1`. -/
theorem spec2proof_c10 (csum : CacheSb → Nat) (gen : Nat → Nat)
    (get_blocksize capacity : String → Nat) (foreign : String → Bool)
    (dm : DiskMap) (c1 c2 b1 : String) (dmR : DiskMap)
    (hd1 : c1 ≠ c2) (hd2 : c1 ≠ b1) (hd3 : c2 ≠ b1)
    (h : mainRun csum gen get_blocksize capacity foreign
        [Arg.cache, Arg.device c1, Arg.device c2, Arg.bdev,
         Arg.device b1] dm = .ok dmR) :
    (dmR c1 0).set_uuid = gen 0 ∧ (dmR c2 0).set_uuid = gen 0 ∧
    (dmR b1 0).set_uuid = gen 0 ∧
    (dmR c1 0).uuid = gen 1 ∧ (dmR c2 0).uuid = gen 1 ∧
    (dmR b1 0).uuid = gen 1 := by
  have hp : parse_args (initState gen)
      [Arg.cache, Arg.device c1, Arg.device c2, Arg.bdev,
       Arg.device b1] =
      .ok { initState gen with
            bdev := 1
            cache_devices := [c1, c2]
            backing_devices := [b1] } := rfl
  have hmain := mainRun_ok_inv csum gen get_blocksize capacity foreign
    _ dm dmR _ hp
    (fun hh => List.noConfusion hh.1)
    (show ¬ ((-1 : Int) ≥ 0) by norm_num)
    rfl h
  have hmain2 : main_format_stage csum gen capacity foreign
      (List.foldl (fun b d => max b (get_blocksize d)) 0 ([c1, c2] ++ [b1]))
      1024 false false false 0
      (((BDEV_DATA_OFFSET 1) % ((2 : Int) ^ 64)).toNat)
      (gen 0) (gen 1) false 1 [c1, c2] [b1] dm = .ok dmR := hmain
  obtain ⟨dm1, ctr1, ctr2, hC, hB⟩ :=
    main_format_stage_inv _ _ _ _ _ _ _ _ _ _ _ _ _ _ _ _ _ _ _ hmain2
  obtain ⟨d1, ctrA, hw1, hrest1⟩ :=
    format_devices_cons_inv _ _ _ _ _ _ _ _ _ _ _ _ _ _ _ _ _ _ _ _ _ _ hC
  obtain ⟨d2, ctrA2, hw2, hrest2⟩ :=
    format_devices_cons_inv _ _ _ _ _ _ _ _ _ _ _ _ _ _ _ _ _ _ _ _ _ _
      hrest1
  simp only [format_devices, Except.ok.injEq, Prod.mk.injEq] at hrest2
  obtain ⟨hmC, -⟩ := hrest2
  subst hmC
  obtain ⟨d3, ctr3, hw3, hrest3⟩ :=
    format_devices_cons_inv _ _ _ _ _ _ _ _ _ _ _ _ _ _ _ _ _ _ _ _ _ _ hB
  simp only [format_devices, Except.ok.injEq, Prod.mk.injEq] at hrest3
  obtain ⟨hmB, -⟩ := hrest3
  subst hmB
  obtain ⟨h0c1, -, -, -⟩ :=
    write_sb_cdev_inv _ _ _ _ _ _ _ _ _ _ _ _ _ _ _ _ _ _ _ hw1
  obtain ⟨h0c2, -, -, -⟩ :=
    write_sb_cdev_inv _ _ _ _ _ _ _ _ _ _ _ _ _ _ _ _ _ _ _ hw2
  obtain ⟨h0b, -, -, -⟩ :=
    write_sb_bdev_inv _ _ _ _ _ _ _ _ _ _ _ _ _ _ _ _ _ _ _ hw3
  have e1 : ((DiskMap.write (DiskMap.write (DiskMap.write dm c1 d1)
      c2 d2) b1 d3) c1) = d1 := by
    simp [DiskMap.write, hd1, hd2]
  have e2 : ((DiskMap.write (DiskMap.write (DiskMap.write dm c1 d1)
      c2 d2) b1 d3) c2) = d2 := by
    simp [DiskMap.write, hd3]
  have e3 : ((DiskMap.write (DiskMap.write (DiskMap.write dm c1 d1)
      c2 d2) b1 d3) b1) = d3 := by
    simp [DiskMap.write]
  rw [e1, e2, e3, h0c1, h0c2, h0b]
  exact ⟨rfl, rfl,
    (bdev_primary_fields _ _ _ _ _ _ _ _).2.2.1, rfl, rfl,
    (bdev_primary_fields _ _ _ _ _ _ _ _).2.1⟩

/-- Device map of a concrete invocation formatting two cache devices and
one backing device with no UUID options, for the C10 witness. -/
def c10wMap : DiskMap :=
  (mainRun (fun _ => 0) id (fun _ => 1) (fun _ => 1048576)
    (fun _ => false)
    [Arg.cache, Arg.device "sda", Arg.device "sdb", Arg.bdev,
     Arg.device "sdc"]
    (fun _ _ => CacheSb.zero)).toOption.getD (fun _ _ => CacheSb.zero)

/-- Witness for C10 at a concrete three-device invocation. -/
theorem spec2proof_c10_witness :
    (c10wMap "sda" 0).set_uuid = 0 ∧ (c10wMap "sdb" 0).set_uuid = 0 ∧
    (c10wMap "sdc" 0).set_uuid = 0 ∧
    (c10wMap "sda" 0).uuid = 1 ∧ (c10wMap "sdb" 0).uuid = 1 ∧
    (c10wMap "sdc" 0).uuid = 1 :=
  spec2proof_c10 (fun _ => 0) id (fun _ => 1) (fun _ => 1048576)
    (fun _ => false) (fun _ _ => CacheSb.zero) "sda" "sdb" "sdc" c10wMap
    (by decide) (by decide) (by decide) rfl
